import Mathlib

/-!
Verification development for the fourier (power-spectrum) module of the
Unimodular_Gravity repository.  The repository provides the header
src/include/fourier.h, where the fields of struct fourier and the stage
functions of the pipeline are declared and documented; the implementation
file of the module is not part of the repository.  Each stage needed below
is therefore modelled from the specification (and from the documented
field semantics of the header), and the stated properties are proved
against these models.
-/

namespace Fourier

/-- Modelled from the spec: the C enumeration non_linear_method of
fourier.h, the selector for the nonlinear correction engine (the
implementation of the corrector is absent from the repository). -/
inductive non_linear_method where
  | nl_none : non_linear_method
  | nl_halofit : non_linear_method
  | nl_HMcode : non_linear_method
deriving DecidableEq

/-- Modelled from the spec: the enumeration of ordered pairs of initial
conditions (index_ic1, index_ic2) with index_ic2 >= index_ic1 over N
initial conditions, as recorded by fourier_indices (implementation
absent); the pairs whose second member equals N - 1 come after the pairs
drawn from the first N - 1 initial conditions. -/
def icPairs : ℕ → List (ℕ × ℕ)
  | 0 => []
  | N + 1 => icPairs N ++ (List.range (N + 1)).map (fun ic1 => (ic1, N))

/-- Modelled from the spec: the field ic_ic_size of struct fourier, the
number of stored pairs of initial conditions. -/
def ic_ic_size (N : ℕ) : ℕ := (icPairs N).length

/-- Modelled from the spec: the spectrum-type index assignment recorded
in struct fourier by fourier_indices (implementation absent). -/
structure PkIndices where
  index_pk_m : ℕ
  index_pk_cb : ℕ
  index_pk_total : ℕ
  index_pk_cluster : ℕ
  pk_size : ℕ
deriving DecidableEq

/-- Modelled from the spec: fourier_indices assigns consecutive indices
to the requested spectrum types (total matter first, then CDM+baryon),
sets the two redundant aliases index_pk_total (always the matter index)
and index_pk_cluster (the CDM+baryon index when that spectrum is
requested, the matter index otherwise), and fails when no spectrum type
is requested. -/
def fourier_indices (has_pk_m has_pk_cb : Bool) : Except String PkIndices :=
  if has_pk_m || has_pk_cb then
    let index_pk_m : ℕ := 0
    let index_pk_cb : ℕ := if has_pk_m then 1 else 0
    Except.ok
      { index_pk_m := index_pk_m
        index_pk_cb := index_pk_cb
        index_pk_total := index_pk_m
        index_pk_cluster := if has_pk_cb then index_pk_cb else index_pk_m
        pk_size := (if has_pk_m then 1 else 0) + (if has_pk_cb then 1 else 0) }
  else
    Except.error "fourier_indices: no spectrum type requested"

/-- Modelled from the spec: fourier_get_tau_list (implementation absent)
restricts the full time grid of the perturbation module to the late-time
part used for output: the suffix starting at the first time whose
redshift zOfTau is at most the requested maximum output redshift
z_max_pk.  Since the time grid increases and the redshift decreases with
time, this suffix is exactly the set of admissible times.  The result is
the grid stored in the field ln_tau. -/
def fourier_get_tau_list (tau : List ℚ) (zOfTau : ℚ → ℚ) (z_max_pk : ℚ) : List ℚ :=
  tau.drop (tau.findIdx (fun t => decide (zOfTau t ≤ z_max_pk)))

/-- Modelled from the spec: the field ln_tau_size, the number of
selected late output times. -/
def ln_tau_size (tau : List ℚ) (zOfTau : ℚ → ℚ) (z_max_pk : ℚ) : ℕ :=
  (fourier_get_tau_list tau zOfTau z_max_pk).length

/-- Modelled from the spec: the field ln_tau_size_nl, the number of
selected late output times at which nonlinear corrections can be
computed, namely those not earlier than the first trustworthy time
tau_min_nl. -/
def ln_tau_size_nl (tau : List ℚ) (zOfTau : ℚ → ℚ) (z_max_pk tau_min_nl : ℚ) : ℕ :=
  ((fourier_get_tau_list tau zOfTau z_max_pk).filter
    (fun t => decide (tau_min_nl ≤ t))).length

/-- The constant _MAX_NUM_EXTRAPOLATION_ of fourier.h, the maximal
number of points added by the high-k extrapolation. -/
def _MAX_NUM_EXTRAPOLATION_ : ℕ := 100000

/-- Modelled from the spec: the logarithmically spaced high-k extension;
starting from the last native wavenumber, every further point multiplies
the previous one by a fixed growth factor f. -/
def geomExt (last f : ℚ) : ℕ → List ℚ
  | 0 => []
  | n + 1 => (last * f) :: geomExt (last * f) f n

/-- Modelled from the spec: fourier_get_k_list (implementation absent)
copies the native k grid of the perturbation module and appends the
logarithmically spaced high-k extension of n_extra points, refusing to
add more than _MAX_NUM_EXTRAPOLATION_ points.  The length of the
returned grid is the field k_size_extra. -/
def fourier_get_k_list (k : List ℚ) (f : ℚ) (n_extra : ℕ) : Except String (List ℚ) :=
  if _MAX_NUM_EXTRAPOLATION_ < n_extra then
    Except.error "fourier_get_k_list: too many points in the extrapolated grid"
  else
    Except.ok (k ++ geomExt (k.getLastD 1) f n_extra)

/-- Modelled from the spec: the contract of the upstream (primordial and
perturbation) collaborators for the inputs of fourier_pk_linear: the
diagonal power of every initial condition is positive at every spectrum
type, time and wavenumber. -/
def PositiveDiag (pkDiag : ℕ → ℕ → ℕ → ℕ → ℝ) : Prop :=
  ∀ index_pk index_tau ic k, 0 < pkDiag index_pk index_tau ic k

/-- Modelled from the spec: the Cauchy-Schwarz contract of the upstream
collaborators: the cross power of two initial conditions is bounded in
absolute value by the geometric mean of the two diagonal powers (the
primordial cross-correlation amplitude is a correlation cosine). -/
def CrossBounded (pkDiag : ℕ → ℕ → ℕ → ℕ → ℝ)
    (pkCross : ℕ → ℕ → ℕ → ℕ → ℕ → ℝ) : Prop :=
  ∀ index_pk index_tau ic1 ic2 k,
    (pkCross index_pk index_tau ic1 ic2 k) ^ 2 ≤
      pkDiag index_pk index_tau ic1 k * pkDiag index_pk index_tau ic2 k

/-- Modelled from the spec: two initial conditions are fully correlated
when their cross power equals the geometric mean of their diagonal
powers at every spectrum type, time and wavenumber. -/
def FullyCorrelated (pkDiag : ℕ → ℕ → ℕ → ℕ → ℝ)
    (pkCross : ℕ → ℕ → ℕ → ℕ → ℕ → ℝ) (ic1 ic2 : ℕ) : Prop :=
  ∀ index_pk index_tau k,
    pkCross index_pk index_tau ic1 ic2 k =
      Real.sqrt (pkDiag index_pk index_tau ic1 k * pkDiag index_pk index_tau ic2 k)

/-- Modelled from the spec: two initial conditions are fully
anticorrelated when their cross power equals the opposite of the
geometric mean of their diagonal powers at every spectrum type, time and
wavenumber. -/
def FullyAntiCorrelated (pkDiag : ℕ → ℕ → ℕ → ℕ → ℝ)
    (pkCross : ℕ → ℕ → ℕ → ℕ → ℕ → ℝ) (ic1 ic2 : ℕ) : Prop :=
  ∀ index_pk index_tau k,
    pkCross index_pk index_tau ic1 ic2 k =
      -Real.sqrt (pkDiag index_pk index_tau ic1 k * pkDiag index_pk index_tau ic2 k)

/-- Modelled from the spec: one entry of the table ln_pk_ic_l built by
fourier_pk_linear (implementation absent): a diagonal entry (with
index_ic1 = index_ic2) stores the natural logarithm of the positive
power, and an off-diagonal entry stores the dimensionless
cross-correlation coefficient, that is the cross power divided by the
square root of the product of the two diagonal powers. -/
noncomputable def ln_pk_ic_l (pkDiag : ℕ → ℕ → ℕ → ℕ → ℝ)
    (pkCross : ℕ → ℕ → ℕ → ℕ → ℕ → ℝ)
    (index_pk index_tau ic1 ic2 k : ℕ) : ℝ :=
  if ic1 = ic2 then Real.log (pkDiag index_pk index_tau ic1 k)
  else
    pkCross index_pk index_tau ic1 ic2 k /
      Real.sqrt (pkDiag index_pk index_tau ic1 k * pkDiag index_pk index_tau ic2 k)

/-- Modelled from the spec: the nonlinear correction table
nl_corr_density filled by the nonlinear corrector stage (implementation
absent).  The table starts at 1 everywhere; with the method nl_none it
is left at 1; with any other method the entries at times strictly before
index_tau_min_nl are skipped (left at 1) and the later entries receive
the value produced by the selected physical model, abstracted here as
the argument modelCorr. -/
def nl_corr_density (method : non_linear_method) (index_tau_min_nl : ℕ)
    (modelCorr : ℕ → ℕ → ℕ → ℚ) (index_pk index_tau index_k : ℕ) : ℚ :=
  match method with
  | .nl_none => 1
  | _ =>
    if index_tau < index_tau_min_nl then 1
    else modelCorr index_pk index_tau index_k

/-- Modelled from the spec: the table k_nl of nonlinear wavenumbers; for
the method nl_none it is left undefined (none), otherwise it holds the
value computed by the selected model, abstracted as modelKnl. -/
def k_nl (method : non_linear_method) (modelKnl : ℕ → ℕ → ℚ)
    (index_pk index_tau : ℕ) : Option ℚ :=
  match method with
  | .nl_none => none
  | _ => some (modelKnl index_pk index_tau)

/-- Modelled from the spec: the field pk_l_nw_index, the spectrum type
feeding the no-wiggle construction: the CDM+baryon index when that
spectrum is present, the total-matter index otherwise. -/
def pk_l_nw_index (has_pk_cb : Bool) (index_pk_cb index_pk_m : ℕ) : ℕ :=
  if has_pk_cb then index_pk_cb else index_pk_m

/-- Modelled from the spec: fourier_wnw_split (implementation absent)
builds the table ln_pk_l_nw_extra by applying the de-wiggling
(smoothing) operator to the extrapolated linear spectrum of the selected
spectrum type. -/
def ln_pk_l_nw_extra (has_pk_cb : Bool) (index_pk_cb index_pk_m : ℕ)
    (lnPkLExtra : ℕ → ℕ → ℚ) (dewiggle : (ℕ → ℚ) → ℕ → ℚ) : ℕ → ℚ :=
  dewiggle (lnPkLExtra (pk_l_nw_index has_pk_cb index_pk_cb index_pk_m))

/-- Modelled from the spec: the part of struct fourier visible to a
redshift query: the configured maximum output redshift, the shared
tables, and the error message zone. -/
structure fourier where
  z_max_pk : ℚ
  ln_tau : List ℚ
  ln_pk_l : ℕ → ℕ → ℚ
  error_message : String

/-- Modelled from the spec: fourier_pk_at_z (implementation absent)
resolves a redshift-only query: a redshift beyond the configured maximum
output redshift is rejected with a descriptive message written in the
error zone and no numeric output is produced; otherwise the stored table
is interpolated (the interpolation kernel is abstracted as the argument
interp).  The function returns the status together with the resulting
context state. -/
def fourier_pk_at_z (pfo : fourier) (z : ℚ) (index_pk : ℕ)
    (interp : (ℕ → ℕ → ℚ) → ℚ → ℕ → ℚ) : Except String ℚ × fourier :=
  if pfo.z_max_pk < z then
    (Except.error "fourier_pk_at_z: z is bigger than z_max_pk",
      { pfo with error_message := "fourier_pk_at_z: z is bigger than z_max_pk" })
  else
    (Except.ok (interp pfo.ln_pk_l z index_pk), pfo)

/-- Helper: membership in the pair enumeration is exactly the ordering
condition of the header documentation. -/
theorem mem_icPairs (N : ℕ) (p : ℕ × ℕ) :
    p ∈ icPairs N ↔ p.1 ≤ p.2 ∧ p.2 < N := by
  induction N with
  | zero => simp [icPairs]
  | succ N ih =>
    obtain ⟨a, b⟩ := p
    simp only [icPairs, List.mem_append, List.mem_map, List.mem_range, ih,
      Prod.mk.injEq]
    constructor
    · rintro (⟨h1, h2⟩ | ⟨x, hx, hxa, hxb⟩)
      · exact ⟨h1, Nat.lt_succ_of_lt h2⟩
      · subst hxa; subst hxb; exact ⟨Nat.lt_succ_iff.mp hx, Nat.lt_succ_self _⟩
    · rintro ⟨h1, h2⟩
      rcases Nat.lt_succ_iff_lt_or_eq.mp h2 with hb | hb
      · exact Or.inl ⟨h1, hb⟩
      · subst hb; exact Or.inr ⟨a, Nat.lt_succ_of_le h1, rfl, rfl⟩

/-- Helper: twice the length of the pair enumeration is N(N+1). -/
theorem two_mul_length_icPairs (N : ℕ) :
    2 * (icPairs N).length = N * (N + 1) := by
  induction N with
  | zero => rfl
  | succ N ih =>
    have hlen : (icPairs (N + 1)).length = (icPairs N).length + (N + 1) := by
      simp [icPairs]
    calc 2 * (icPairs (N + 1)).length
        = 2 * (icPairs N).length + 2 * (N + 1) := by rw [hlen]; ring
      _ = N * (N + 1) + 2 * (N + 1) := by rw [ih]
      _ = (N + 1) * (N + 1 + 1) := by ring

/-- Helper: the pair enumeration lists every pair at most once. -/
theorem nodup_icPairs (N : ℕ) : (icPairs N).Nodup := by
  induction N with
  | zero => exact List.nodup_nil
  | succ N ih =>
    refine List.Nodup.append ih ?_ ?_
    · exact List.Nodup.map (fun a b hab => by injection hab) (List.nodup_range (N + 1))
    · intro p hp hp2
      rcases List.mem_map.mp hp2 with ⟨x, _, hxp⟩
      have h2 : p.2 < N := ((mem_icPairs N p).mp hp).2
      rw [← hxp] at h2
      exact absurd h2 (Nat.lt_irrefl N)

/-- C4: for a context with N initial conditions, the enumeration of
initial-condition pairs covers exactly the ordered pairs (ic1, ic2) with
ic2 >= ic1, each pair once, and the stored count ic_ic_size equals
N(N+1)/2. -/
theorem C4_ic_pair_enumeration (N : ℕ) :
    (∀ p : ℕ × ℕ, p ∈ icPairs N ↔ p.1 ≤ p.2 ∧ p.2 < N) ∧
      (icPairs N).Nodup ∧ ic_ic_size N = N * (N + 1) / 2 := by
  refine ⟨mem_icPairs N, nodup_icPairs N, ?_⟩
  have h := two_mul_length_icPairs N
  unfold ic_ic_size
  omega

/-- C5: whenever fourier_indices succeeds, the redundant alias
index_pk_total equals index_pk_m, and index_pk_cluster equals
index_pk_cb when the CDM+baryon spectrum is requested and index_pk_m
otherwise; in the model both aliases are fields of the result, hence
always defined. -/
theorem C5_redundant_aliases (has_pk_m has_pk_cb : Bool) (r : PkIndices)
    (h : fourier_indices has_pk_m has_pk_cb = Except.ok r) :
    r.index_pk_total = r.index_pk_m ∧
      r.index_pk_cluster = (if has_pk_cb then r.index_pk_cb else r.index_pk_m) := by
  obtain ⟨a, b, c, d, e⟩ := r
  cases has_pk_m <;> cases has_pk_cb <;> simp_all [fourier_indices] <;> omega

/-- Witness for C5 at the configuration requesting both spectrum types. -/
theorem C5_redundant_aliases_witness :
    fourier_indices true true = Except.ok (PkIndices.mk 0 1 0 1 2) ∧
      (PkIndices.mk 0 1 0 1 2).index_pk_total = (PkIndices.mk 0 1 0 1 2).index_pk_m :=
  ⟨rfl, (C5_redundant_aliases true true (PkIndices.mk 0 1 0 1 2) rfl).1⟩

/-- C2: with the method nl_none the nonlinear correction factor equals 1
at every spectrum type, time and wavenumber, and the nonlinear
wavenumber is left undefined at every spectrum type and time. -/
theorem C2_method_none (index_tau_min_nl : ℕ) (modelCorr : ℕ → ℕ → ℕ → ℚ)
    (modelKnl : ℕ → ℕ → ℚ) :
    (∀ index_pk index_tau index_k,
        nl_corr_density non_linear_method.nl_none index_tau_min_nl modelCorr
          index_pk index_tau index_k = 1) ∧
      (∀ index_pk index_tau,
        k_nl non_linear_method.nl_none modelKnl index_pk index_tau = none) :=
  ⟨fun _ _ _ => rfl, fun _ _ => rfl⟩

/-- C6: for every nonlinear method, at times strictly before
index_tau_min_nl no nonlinear computation is performed and the entries
of nl_corr_density are left at 1. -/
theorem C6_early_times_left_at_one (method : non_linear_method)
    (index_tau_min_nl : ℕ) (modelCorr : ℕ → ℕ → ℕ → ℚ)
    (index_pk index_tau index_k : ℕ) (h : index_tau < index_tau_min_nl) :
    nl_corr_density method index_tau_min_nl modelCorr
      index_pk index_tau index_k = 1 := by
  cases method <;> simp [nl_corr_density, h]

/-- Witness for C6 with the halofit method at a time before the marked
minimum index. -/
theorem C6_early_times_left_at_one_witness :
    2 < 5 ∧
      nl_corr_density non_linear_method.nl_halofit 5 (fun _ _ _ => 3) 0 2 7 = 1 :=
  ⟨by decide,
    C6_early_times_left_at_one non_linear_method.nl_halofit 5
      (fun _ _ _ => 3) 0 2 7 (by decide)⟩

/-- C7: the no-wiggle spectrum is built from the extrapolated CDM+baryon
spectrum when that spectrum is present, and from the extrapolated
total-matter spectrum otherwise, with this priority. -/
theorem C7_nowiggle_source_priority (index_pk_cb index_pk_m : ℕ)
    (lnPkLExtra : ℕ → ℕ → ℚ) (dewiggle : (ℕ → ℚ) → ℕ → ℚ) :
    ln_pk_l_nw_extra true index_pk_cb index_pk_m lnPkLExtra dewiggle =
        dewiggle (lnPkLExtra index_pk_cb) ∧
      ln_pk_l_nw_extra false index_pk_cb index_pk_m lnPkLExtra dewiggle =
        dewiggle (lnPkLExtra index_pk_m) :=
  ⟨rfl, rfl⟩

/-- C10: the number of late output times with computable nonlinear
corrections is nonnegative and never exceeds the total number of late
output times. -/
theorem C10_ln_tau_size_nl_bounds (tau : List ℚ) (zOfTau : ℚ → ℚ)
    (z_max_pk tau_min_nl : ℚ) :
    0 ≤ ln_tau_size_nl tau zOfTau z_max_pk tau_min_nl ∧
      ln_tau_size_nl tau zOfTau z_max_pk tau_min_nl ≤
        ln_tau_size tau zOfTau z_max_pk :=
  ⟨Nat.zero_le _, List.length_filter_le _ _⟩

/-- C3: every time selected into the late-time output grid has redshift
at most z_max_pk, and no time of the full grid satisfying that bound is
omitted; the time grid is increasing and the redshift decreases with
time (background collaborator contract). -/
theorem C3_tau_grid_selection (tau : List ℚ) (zOfTau : ℚ → ℚ) (z_max_pk : ℚ)
    (hsorted : tau.Pairwise (· ≤ ·))
    (hanti : ∀ a b : ℚ, a ≤ b → zOfTau b ≤ zOfTau a) :
    (∀ t ∈ fourier_get_tau_list tau zOfTau z_max_pk, zOfTau t ≤ z_max_pk) ∧
      (∀ t ∈ tau, zOfTau t ≤ z_max_pk →
        t ∈ fourier_get_tau_list tau zOfTau z_max_pk) := by
  induction tau with
  | nil => simp [fourier_get_tau_list]
  | cons a l ih =>
    rcases List.pairwise_cons.mp hsorted with ⟨ha, hl⟩
    by_cases hpa : zOfTau a ≤ z_max_pk
    · have hkeep : fourier_get_tau_list (a :: l) zOfTau z_max_pk = a :: l := by
        simp [fourier_get_tau_list, List.findIdx_cons, hpa]
      rw [hkeep]
      constructor
      · intro t ht
        rcases List.mem_cons.mp ht with h | h
        · rw [h]; exact hpa
        · exact le_trans (hanti a t (ha t h)) hpa
      · intro t ht _
        exact ht
    · have hskip : fourier_get_tau_list (a :: l) zOfTau z_max_pk =
          fourier_get_tau_list l zOfTau z_max_pk := by
        simp [fourier_get_tau_list, List.findIdx_cons, hpa]
      rw [hskip]
      rcases ih hl with ⟨ih1, ih2⟩
      refine ⟨ih1, ?_⟩
      intro t ht hz
      rcases List.mem_cons.mp ht with h | h
      · rw [h] at hz; exact absurd hz hpa
      · exact ih2 t h hz

/-- Witness for C3 on the time grid 1, 2, 3 with redshift minus tau and
maximum output redshift minus two: the admissible time 3 is selected. -/
theorem C3_tau_grid_selection_witness :
    ([1, 2, 3] : List ℚ).Pairwise (· ≤ ·) ∧
      (3 : ℚ) ∈ fourier_get_tau_list [1, 2, 3] (fun t => -t) (-2) :=
  ⟨by decide,
    (C3_tau_grid_selection [1, 2, 3] (fun t => -t) (-2) (by decide)
      (fun a b h => neg_le_neg h)).2 3 (by decide) (by decide)⟩

/-- Helper: the high-k extension has exactly the requested number of
points. -/
theorem geomExt_length (n : ℕ) (last f : ℚ) : (geomExt last f n).length = n := by
  induction n generalizing last with
  | zero => rfl
  | succ n ih => simp [geomExt, ih]

/-- C9: the extrapolated k grid keeps the native grid as its initial
segment and contains at least the native points and at most
_MAX_NUM_EXTRAPOLATION_ more. -/
theorem C9_k_size_extra_bounds (k : List ℚ) (f : ℚ) (n_extra : ℕ)
    (kl : List ℚ) (h : fourier_get_k_list k f n_extra = Except.ok kl) :
    kl.take k.length = k ∧ k.length ≤ kl.length ∧
      kl.length ≤ k.length + _MAX_NUM_EXTRAPOLATION_ := by
  unfold fourier_get_k_list at h
  by_cases hn : _MAX_NUM_EXTRAPOLATION_ < n_extra
  · simp [hn] at h
  · simp only [hn, if_false, Except.ok.injEq, reduceIte] at h
    rw [← h]
    refine ⟨List.take_left _ _, ?_, ?_⟩
    · simp
    · rw [List.length_append, geomExt_length]
      exact Nat.add_le_add_left (Nat.not_lt.mp hn) _

/-- Witness for C9 on the native grid 1, 2 extended by one point with
growth factor 10. -/
theorem C9_k_size_extra_bounds_witness :
    fourier_get_k_list [1, 2] 10 1 = Except.ok [1, 2, 20] ∧
      ([1, 2, 20] : List ℚ).take ([1, 2] : List ℚ).length = [1, 2] :=
  ⟨by norm_num [fourier_get_k_list, geomExt, _MAX_NUM_EXTRAPOLATION_],
    (C9_k_size_extra_bounds [1, 2] 10 1 [1, 2, 20]
      (by norm_num [fourier_get_k_list, geomExt, _MAX_NUM_EXTRAPOLATION_])).1⟩

/-- C8: a query fourier_pk_at_z at a redshift beyond the configured
maximum output redshift fails (no numeric value is returned) with a
nonempty descriptive message, and leaves every shared table of the
context unchanged. -/
theorem C8_out_of_range_query (pfo : fourier) (z : ℚ) (index_pk : ℕ)
    (interp : (ℕ → ℕ → ℚ) → ℚ → ℕ → ℚ) (h : pfo.z_max_pk < z) :
    (fourier_pk_at_z pfo z index_pk interp).1.isOk = false ∧
      (fourier_pk_at_z pfo z index_pk interp).2.error_message ≠ "" ∧
      (fourier_pk_at_z pfo z index_pk interp).2.ln_pk_l = pfo.ln_pk_l ∧
      (fourier_pk_at_z pfo z index_pk interp).2.ln_tau = pfo.ln_tau ∧
      (fourier_pk_at_z pfo z index_pk interp).2.z_max_pk = pfo.z_max_pk := by
  unfold fourier_pk_at_z
  rw [if_pos h]
  refine ⟨rfl, ?_, rfl, rfl, rfl⟩
  show ("fourier_pk_at_z: z is bigger than z_max_pk" : String) ≠ ""
  decide

/-- Witness for C8: a context with maximum output redshift 0 queried at
redshift 1. -/
theorem C8_out_of_range_query_witness :
    (fourier.mk 0 [] (fun _ _ => 0) "").z_max_pk < 1 ∧
      (fourier_pk_at_z (fourier.mk 0 [] (fun _ _ => 0) "") 1 0
        (fun _ _ _ => 0)).1.isOk = false :=
  ⟨by decide,
    (C8_out_of_range_query (fourier.mk 0 [] (fun _ _ => 0) "") 1 0
      (fun _ _ _ => 0) (by decide)).1⟩

/-- C1: under the collaborator contracts, every off-diagonal entry of
the per-IC-pair linear table lies in the closed interval from -1 to 1 at
every spectrum type, time and wavenumber; for a fully correlated pair
the entry equals 1 at every wavenumber and for a fully anticorrelated
pair it equals -1 at every wavenumber, hence it is k-independent in both
cases. -/
theorem C1_offdiag_correlation (pkDiag : ℕ → ℕ → ℕ → ℕ → ℝ)
    (pkCross : ℕ → ℕ → ℕ → ℕ → ℕ → ℝ) (hpos : PositiveDiag pkDiag)
    (ic1 ic2 : ℕ) (hne : ic1 ≠ ic2) :
    (CrossBounded pkDiag pkCross →
      ∀ index_pk index_tau k,
        -1 ≤ ln_pk_ic_l pkDiag pkCross index_pk index_tau ic1 ic2 k ∧
          ln_pk_ic_l pkDiag pkCross index_pk index_tau ic1 ic2 k ≤ 1) ∧
    (FullyCorrelated pkDiag pkCross ic1 ic2 →
      ∀ index_pk index_tau k,
        ln_pk_ic_l pkDiag pkCross index_pk index_tau ic1 ic2 k = 1) ∧
    (FullyAntiCorrelated pkDiag pkCross ic1 ic2 →
      ∀ index_pk index_tau k,
        ln_pk_ic_l pkDiag pkCross index_pk index_tau ic1 ic2 k = -1) := by
  have hentry : ∀ index_pk index_tau k,
      ln_pk_ic_l pkDiag pkCross index_pk index_tau ic1 ic2 k =
        pkCross index_pk index_tau ic1 ic2 k /
          Real.sqrt (pkDiag index_pk index_tau ic1 k *
            pkDiag index_pk index_tau ic2 k) := by
    intro index_pk index_tau k
    simp [ln_pk_ic_l, hne]
  have hsq : ∀ index_pk index_tau k,
      0 < Real.sqrt (pkDiag index_pk index_tau ic1 k *
        pkDiag index_pk index_tau ic2 k) := by
    intro index_pk index_tau k
    exact Real.sqrt_pos.mpr
      (mul_pos (hpos index_pk index_tau ic1 k) (hpos index_pk index_tau ic2 k))
  refine ⟨?_, ?_, ?_⟩
  · intro hcs index_pk index_tau k
    have hs := hsq index_pk index_tau k
    have habs : |pkCross index_pk index_tau ic1 ic2 k| ≤
        Real.sqrt (pkDiag index_pk index_tau ic1 k *
          pkDiag index_pk index_tau ic2 k) := by
      have h1 := Real.sqrt_le_sqrt (hcs index_pk index_tau ic1 ic2 k)
      rwa [Real.sqrt_sq_eq_abs] at h1
    rcases abs_le.mp habs with ⟨hlo, hhi⟩
    rw [hentry index_pk index_tau k]
    constructor
    · rw [neg_le, ← neg_div]
      exact (div_le_one hs).mpr (by linarith)
    · exact (div_le_one hs).mpr hhi
  · intro hfc index_pk index_tau k
    rw [hentry index_pk index_tau k, hfc index_pk index_tau k]
    exact div_self (ne_of_gt (hsq index_pk index_tau k))
  · intro hfa index_pk index_tau k
    rw [hentry index_pk index_tau k, hfa index_pk index_tau k, neg_div]
    rw [div_self (ne_of_gt (hsq index_pk index_tau k))]

/-- Witness for C1: with unit diagonal powers and unit cross power the
pair (0, 1) is fully correlated and its table entry equals 1. -/
theorem C1_offdiag_correlation_witness :
    PositiveDiag (fun _ _ _ _ => (1 : ℝ)) ∧
      ln_pk_ic_l (fun _ _ _ _ => (1 : ℝ)) (fun _ _ _ _ _ => (1 : ℝ)) 0 0 0 1 5 = 1 :=
  ⟨fun _ _ _ _ => one_pos,
    (C1_offdiag_correlation (fun _ _ _ _ => (1 : ℝ)) (fun _ _ _ _ _ => (1 : ℝ))
      (fun _ _ _ _ => one_pos) 0 1 (by decide)).2.1
      (fun _ _ _ => by rw [one_mul, Real.sqrt_one]) 0 0 5⟩

end Fourier
